import Mathlib

/-!
Verification of the marginfi-v2 repository fragment against its
natural-language specification.

The development shallowly embeds:
1. the liquidity-incentive-program instruction
   `create_campaign` (programs/liquidity-incentive-program/src/instructions/create_campaign.rs),
2. the CLI configuration helpers
   (clients/rust/marginfi-cli/src/config.rs),
3. the lending/margin engine (banks, balances, health engine, borrow,
   liquidate), whose implementation is not part of the visible fragment:
   these definitions are modelled from the specification text.

Token transfers are an external collaborator: they are passed in as a
function returning a result, and the handler records the calls it makes
in an event trace so that ordering and argument claims are statable.
-/

/-- A Solana public key, abstracted to an identifier. -/
structure Pubkey where
  key : Nat
deriving DecidableEq, Repr

/-- An error produced by the external token-transfer collaborator. -/
structure TransferError where
  code : Nat
deriving DecidableEq, Repr

/-- The Campaign account state, fields exactly as in
`liquidity-incentive-program/src/state.rs` (as written by `create_campaign`). -/
structure Campaign where
  admin : Pubkey
  lockup_period : Nat
  active : Bool
  max_deposits : Nat
  remaining_capacity : Nat
  max_rewards : Nat
  marginfi_bank_pk : Pubkey
deriving DecidableEq, Repr

/-- Arguments of one call to the token-transfer collaborator: the
`Transfer { from, to, authority }` accounts plus the amount. -/
structure TransferArgs where
  src : Pubkey
  dst : Pubkey
  authority : Pubkey
  amount : Nat
deriving DecidableEq, Repr

/-- The accounts supplied to `CreateCampaign`, reduced to their keys.
`marginfiBankMint` is the `mint` field loaded from the marginfi `Bank`
account (used by the `address = marginfi_bank.load()?.mint` constraint). -/
structure CreateCampaignAccounts where
  admin : Pubkey
  fundingAccount : Pubkey
  campaignRewardVault : Pubkey
  assetMint : Pubkey
  marginfiBank : Pubkey
  marginfiBankMint : Pubkey
deriving DecidableEq, Repr

/-- Observable side effects of the handler, in order of occurrence. -/
inductive Event where
  | transferCall (args : TransferArgs)
  | campaignWrite (c : Campaign)
deriving DecidableEq, Repr

/-- The transfer the handler issues: funding account to reward vault,
admin as authority, `max_rewards` tokens (create_campaign.rs lines 16-26). -/
def transferArgsOf (accts : CreateCampaignAccounts) (max_rewards : Nat) : TransferArgs :=
  { src := accts.fundingAccount
    dst := accts.campaignRewardVault
    authority := accts.admin
    amount := max_rewards }

/-- The body of `create_campaign::process`: perform the funding transfer
(propagating its error via the question-mark operator), then write the
Campaign account.  The returned event list records the external calls and
state writes in program order. -/
def createCampaignProcess (tr : TransferArgs → Except TransferError Unit)
    (accts : CreateCampaignAccounts)
    (lockup_period max_deposits max_rewards : Nat) :
    Except TransferError Campaign × List Event :=
  let args := transferArgsOf accts max_rewards
  match tr args with
  | Except.error e => (Except.error e, [Event.transferCall args])
  | Except.ok _ =>
    let c : Campaign :=
      { admin := accts.admin
        lockup_period := lockup_period
        active := true
        max_deposits := max_deposits
        remaining_capacity := max_deposits
        max_rewards := max_rewards
        marginfi_bank_pk := accts.marginfiBank }
    (Except.ok c, [Event.transferCall args, Event.campaignWrite c])

/-- An error of the whole instruction: either an Anchor account-constraint
violation or a propagated transfer error. -/
inductive LipError where
  | constraintAddress
  | transferFailed (e : TransferError)
deriving DecidableEq, Repr

/-- The full `create_campaign` instruction: Anchor first checks the
`#[account(address = marginfi_bank.load()?.mint)]` constraint on
`asset_mint`; only then does the handler body run. -/
def createCampaign (tr : TransferArgs → Except TransferError Unit)
    (accts : CreateCampaignAccounts)
    (lockup_period max_deposits max_rewards : Nat) :
    Except LipError Campaign × List Event :=
  if accts.assetMint ≠ accts.marginfiBankMint then
    (Except.error LipError.constraintAddress, [])
  else
    match createCampaignProcess tr accts lockup_period max_deposits max_rewards with
    | (Except.error e, evs) => (Except.error (LipError.transferFailed e), evs)
    | (Except.ok c, evs) => (Except.ok c, evs)

/-- Commit semantics of an atomic transition: an error leaves the stored
account at its previous value. -/
def commitCampaign (old : Campaign) (r : Except ε Campaign) : Campaign :=
  match r with
  | Except.ok c => c
  | Except.error _ => old

/-! ## CLI configuration (clients/rust/marginfi-cli/src/config.rs) -/

/-- A signing keypair; only the public half is observable here. -/
structure Keypair where
  secretKey : Nat
  publicKey : Pubkey
deriving DecidableEq, Repr

/-- The pubkey of a keypair, as `Keypair::pubkey()`. -/
def Keypair.pubkey (k : Keypair) : Pubkey := k.publicKey

/-- Transaction submission mode, as the `TxMode` enum. -/
inductive TxMode where
  | DryRun
  | Multisig
  | Normal
deriving DecidableEq, Repr

/-- The CLI `Config` struct.  `cluster`, `program_id` and `commitment` are
opaque data irrelevant to the helpers below; the runtime handles (`client`,
`mfi_program`, `lip_program`) are derived from them and omitted. -/
structure Config where
  cluster : Nat
  fee_payer : Keypair
  multisig : Option Pubkey
  program_id : Pubkey
  commitment : Nat
  dry_run : Bool
deriving DecidableEq, Repr

/-- As `Config::explicit_fee_payer`. -/
def Config.explicit_fee_payer (c : Config) : Pubkey :=
  c.fee_payer.pubkey

/-- As `Config::authority`: the multisig pubkey when one is configured,
otherwise the fee payer pubkey. -/
def Config.authority (c : Config) : Pubkey :=
  match c.multisig with
  | some multisig => multisig
  | none => c.fee_payer.pubkey

/-- As `Config::get_tx_mode`. -/
def Config.get_tx_mode (c : Config) : TxMode :=
  if c.dry_run then TxMode.DryRun
  else if c.multisig.isSome then TxMode.Multisig
  else TxMode.Normal

/-- As `Config::get_signers`. -/
def Config.get_signers (c : Config) (explicitFeePayer : Bool) : List Keypair :=
  if explicitFeePayer || c.multisig.isNone then [c.fee_payer] else []

/-- As `Config::get_non_ms_authority_keypair`: the fee payer keypair,
erroring when a multisig is configured. -/
def Config.get_non_ms_authority_keypair (c : Config) : Except String Keypair :=
  if c.multisig.isNone then Except.ok c.fee_payer
  else Except.error "Cannot get authority keypair for multisig"

/-! ## The lending/margin engine, modelled from the specification

The engine implementation (programs/marginfi/src/instructions/marginfi_account)
is declared but not visible in the fragment; the definitions in this
namespace are modelled from sections 3, 4.1-4.8 and 8 of the spec. -/

namespace Engine

/-- Errors of the engine, from the error taxonomy of the spec. -/
inductive EngineErr where
  | invalidAmount
  | invalidUtilization
  | insufficientBalance
  | borrowCapExceeded
  | accountUnhealthy
  | accountHealthy
  | noHealthImprovement
deriving DecidableEq, Repr

/-- Decidable equality of results, for evaluating concrete runs. -/
instance instExceptDecEq {ε α : Type} [DecidableEq ε] [DecidableEq α] :
    DecidableEq (Except ε α) := fun a b =>
  match a, b with
  | Except.ok x, Except.ok y =>
    if h : x = y then Decidable.isTrue (by rw [h])
    else Decidable.isFalse (by intro hc; cases hc; exact h rfl)
  | Except.error x, Except.error y =>
    if h : x = y then Decidable.isTrue (by rw [h])
    else Decidable.isFalse (by intro hc; cases hc; exact h rfl)
  | Except.ok _, Except.error _ => Decidable.isFalse (by intro hc; cases hc)
  | Except.error _, Except.ok _ => Decidable.isFalse (by intro hc; cases hc)

/-- The fixed-point scale: all fractional quantities (share values, weights,
prices, rates) are integers denominated in millionths, mirroring the
u128-equivalent fixed-point representation of the spec (section 3). -/
def scale : Int := 1000000

/-- Fixed-point multiplication, truncating. -/
def fmul (a b : Int) : Int := a * b / scale

/-- Fixed-point division rounding down. -/
def fdivFloor (a b : Int) : Int := a * scale / b

/-- Fixed-point division rounding up (used when the user owes, spec 4.2). -/
def fdivCeil (a b : Int) : Int := (a * scale + b - 1) / b

/-- Modelled from the spec: the per-asset-pool `Bank` state (spec section 3)
with total shares, the two share exchange rates, the four risk weights, the
last-accrual timestamp, an optional borrow cap (spec 4.6), the bank-level
liquidation bonus constant (spec 4.8) and the current oracle price snapshot
(oracle reads are pure reads of externally supplied data, spec 5).  All
fractional fields are fixed-point integers at `scale`. -/
structure Bank where
  totalAssetShares : Int
  totalLiabilityShares : Int
  assetShareValue : Int
  liabilityShareValue : Int
  assetWeightInit : Int
  assetWeightMaint : Int
  liabilityWeightInit : Int
  liabilityWeightMaint : Int
  lastUpdateTimestamp : Nat
  borrowCap : Option Int
  liquidationBonus : Int
  price : Int
deriving DecidableEq, Repr

/-- Modelled from the spec: the base slope of the monotonic utilization-based
interest-rate curve (the exact curve is an implementation choice, spec 9);
one tenth, at scale. -/
def baseRate : Int := 100000

/-- Total nominal assets of a bank. -/
def Bank.totalAssets (b : Bank) : Int := fmul b.totalAssetShares b.assetShareValue

/-- Total nominal liabilities of a bank. -/
def Bank.totalLiabilities (b : Bank) : Int := fmul b.totalLiabilityShares b.liabilityShareValue

/-- Modelled from the spec: `accrue(current_timestamp)` (spec 4.1, not in the
visible fragment).  Within the same timestamp it is a no-op; otherwise it
guards utilization above 100 percent with `InvalidUtilization`, recomputes
both share values from a rate that is a monotonic function of utilization,
and updates `last_update_timestamp`. -/
def Bank.accrue (t : Nat) (b : Bank) : Except EngineErr Bank :=
  let elapsed : Nat := t - b.lastUpdateTimestamp
  if elapsed = 0 then Except.ok b
  else if b.totalAssets < b.totalLiabilities then Except.error EngineErr.invalidUtilization
  else
    let util : Int := if b.totalAssets = 0 then 0 else fdivFloor b.totalLiabilities b.totalAssets
    let rate : Int := fmul baseRate util
    Except.ok
      { b with
        assetShareValue := fmul b.assetShareValue (scale + fmul rate util * (elapsed : Int))
        liabilityShareValue := fmul b.liabilityShareValue (scale + rate * (elapsed : Int))
        lastUpdateTimestamp := t }

/-- Modelled from the spec: a user position in one bank (spec section 3);
share counts are fixed-point integers at `scale`. -/
structure Balance where
  bankIdx : Nat
  assetShares : Int
  liabilityShares : Int
  active : Bool
  lastEmissionsUpdate : Nat
deriving DecidableEq, Repr

/-- Modelled from the spec: the `MarginfiAccount`, the unit of solvency
evaluation (a bounded slot array in the implementation, a list here). -/
structure MarginfiAccount where
  authority : Pubkey
  balances : List Balance
deriving DecidableEq, Repr

/-- The two weight sets of the Health Engine (spec 4.3). -/
inductive RiskMode where
  | initialMode
  | maintenanceMode
deriving DecidableEq, Repr

/-- The asset weight of a bank under a weight set. -/
def Bank.assetWeight (b : Bank) (m : RiskMode) : Int :=
  match m with
  | RiskMode.initialMode => b.assetWeightInit
  | RiskMode.maintenanceMode => b.assetWeightMaint

/-- The liability weight of a bank under a weight set. -/
def Bank.liabilityWeight (b : Bank) (m : RiskMode) : Int :=
  match m with
  | RiskMode.initialMode => b.liabilityWeightInit
  | RiskMode.maintenanceMode => b.liabilityWeightMaint

/-- Modelled from the spec: risk-weighted asset value of an account,
summing `shares * share_value * oracle_price * asset_weight[mode]` over the
active balances (spec 4.3). -/
def weightedAssets (m : RiskMode) (banks : Nat → Bank) (acc : MarginfiAccount) : Int :=
  (acc.balances.map (fun bal =>
    if bal.active then
      fmul (fmul (fmul bal.assetShares (banks bal.bankIdx).assetShareValue)
        (banks bal.bankIdx).price) ((banks bal.bankIdx).assetWeight m)
    else 0)).sum

/-- Modelled from the spec: risk-weighted liability value, symmetric to
`weightedAssets` with liability weights (spec 4.3). -/
def weightedLiabilities (m : RiskMode) (banks : Nat → Bank) (acc : MarginfiAccount) : Int :=
  (acc.balances.map (fun bal =>
    if bal.active then
      fmul (fmul (fmul bal.liabilityShares (banks bal.bankIdx).liabilityShareValue)
        (banks bal.bankIdx).price) ((banks bal.bankIdx).liabilityWeight m)
    else 0)).sum

/-- Modelled from the spec: the Health Engine verdict,
`sum(asset_value) >= sum(liability_value)` (spec 4.3). -/
def checkHealth (m : RiskMode) (banks : Nat → Bank) (acc : MarginfiAccount) : Bool :=
  weightedLiabilities m banks acc ≤ weightedAssets m banks acc

/-- Add liability shares to the balance of a bank, creating the slot lazily
on first use (spec section 3, Balance lifecycle). -/
def addLiabShares (acc : MarginfiAccount) (idx : Nat) (s : Int) : MarginfiAccount :=
  if acc.balances.any (fun b => b.bankIdx == idx && b.active) then
    { acc with
      balances := acc.balances.map (fun b =>
        if b.bankIdx == idx && b.active then { b with liabilityShares := b.liabilityShares + s }
        else b) }
  else
    { acc with balances := acc.balances ++ [⟨idx, 0, s, true, 0⟩] }

/-- Add asset shares to the balance of a bank, creating the slot lazily. -/
def addAssetShares (acc : MarginfiAccount) (idx : Nat) (s : Int) : MarginfiAccount :=
  if acc.balances.any (fun b => b.bankIdx == idx && b.active) then
    { acc with
      balances := acc.balances.map (fun b =>
        if b.bankIdx == idx && b.active then { b with assetShares := b.assetShares + s }
        else b) }
  else
    { acc with balances := acc.balances ++ [⟨idx, s, 0, true, 0⟩] }

/-- True when the configured borrow cap is exceeded (spec 4.6). -/
def Bank.capExceeded (b : Bank) : Bool :=
  match b.borrowCap with
  | some cap => cap < b.totalLiabilityShares
  | none => false

/-- Modelled from the spec: the borrow instruction (spec 4.6, not in the
visible fragment).  Requires amount strictly positive, accrues the bank,
adds liability shares (rounded up, the user owes) to the balance and to
`Bank.total_liability_shares`, rejects with `BankBorrowCapExceeded` above
the cap, and finally runs the Health Engine at Initial weights, failing
with `AccountUnhealthy`. -/
def borrow (t : Nat) (banks : Nat → Bank) (acc : MarginfiAccount) (idx : Nat) (amount : Int) :
    Except EngineErr (MarginfiAccount × (Nat → Bank)) :=
  if amount ≤ 0 then Except.error EngineErr.invalidAmount
  else
    match (banks idx).accrue t with
    | Except.error e => Except.error e
    | Except.ok bk =>
      let shares := fdivCeil amount bk.liabilityShareValue
      let bk2 := { bk with totalLiabilityShares := bk.totalLiabilityShares + shares }
      if bk2.capExceeded then Except.error EngineErr.borrowCapExceeded
      else
        let banks2 := fun i => if i = idx then bk2 else banks i
        let acc2 := addLiabShares acc idx shares
        if checkHealth RiskMode.initialMode banks2 acc2 then Except.ok (acc2, banks2)
        else Except.error EngineErr.accountUnhealthy

/-- Modelled from the spec: the liquidate instruction (spec 4.8, not in the
visible fragment), three phases in one atomic transition: pre-check that the
target fails Maintenance health (else `AccountHealthy`); transfer of a
liability repayment and discounted collateral seizure at oracle prices;
post-check that the liquidator passes Initial health and that the target
health strictly improved. -/
def liquidate (banks : Nat → Bank) (liquidator target : MarginfiAccount)
    (assetIdx liabIdx : Nat) (amount : Int) :
    Except EngineErr (MarginfiAccount × MarginfiAccount) :=
  if checkHealth RiskMode.maintenanceMode banks target then
    Except.error EngineErr.accountHealthy
  else
    let lb := banks liabIdx
    let ab := banks assetIdx
    let liabShares := fdivCeil amount lb.liabilityShareValue
    let seizedTokens := fdivFloor (fmul (fmul amount lb.price) (scale + ab.liquidationBonus)) ab.price
    let seizedShares := fdivFloor seizedTokens ab.assetShareValue
    let target2 := addAssetShares (addLiabShares target liabIdx (-liabShares)) assetIdx (-seizedShares)
    let liq2 := addAssetShares (addLiabShares liquidator liabIdx liabShares) assetIdx seizedShares
    if ¬ checkHealth RiskMode.initialMode banks liq2 then
      Except.error EngineErr.accountUnhealthy
    else if weightedAssets RiskMode.maintenanceMode banks target2
              - weightedLiabilities RiskMode.maintenanceMode banks target2
            ≤ weightedAssets RiskMode.maintenanceMode banks target
              - weightedLiabilities RiskMode.maintenanceMode banks target then
      Except.error EngineErr.noHealthImprovement
    else Except.ok (liq2, target2)

/-- Commit semantics of an atomic transition on a pair of accounts: an
error leaves both accounts at their previous values. -/
def commitPair (old : MarginfiAccount × MarginfiAccount)
    (r : Except EngineErr (MarginfiAccount × MarginfiAccount)) :
    MarginfiAccount × MarginfiAccount :=
  match r with
  | Except.ok s => s
  | Except.error _ => old

/-- The fixed-point scale as a natural number, for share-count arithmetic. -/
def scaleN : Nat := 1000000

/-- Modelled from the spec: amount-to-shares conversion when the user is
credited, rounding down in the favor of the protocol (spec 4.2).  The share
value `v` is a positive fixed-point integer at `scaleN`. -/
def amountToSharesDown (amount v : Nat) : Nat :=
  amount * scaleN / v

/-- Modelled from the spec: amount-to-shares conversion when the user owes,
rounding up in the favor of the protocol (spec 4.2). -/
def amountToSharesUp (amount v : Nat) : Nat :=
  (amount * scaleN + v - 1) / v

/-- Modelled from the spec: the effect of the deposit instruction on the
Balance of the target bank (spec 4.4): the shares credited for `amount`
are rounded down. -/
def depositShares (s v amount : Nat) : Nat :=
  s + amountToSharesDown amount v

/-- Modelled from the spec: the effect of the withdraw instruction on the
Balance of the target bank (spec 4.5): the shares debited for `amount` are
rounded up, and `InsufficientBalance` is raised when the amount exceeds the
available balance. -/
def withdrawShares (s v amount : Nat) : Except EngineErr Nat :=
  let d := amountToSharesUp amount v
  if d ≤ s then Except.ok (s - d) else Except.error EngineErr.insufficientBalance

/-- The bank as updated by a borrow of `amount` when the bank is already
accrued (the liability shares added to the pool total). -/
def borrowedBank (banks : Nat → Bank) (idx : Nat) (amount : Int) : Bank :=
  { banks idx with
    totalLiabilityShares :=
      (banks idx).totalLiabilityShares + fdivCeil amount (banks idx).liabilityShareValue }

/-- The bank map after a borrow of `amount` from bank `idx`. -/
def borrowedBanks (banks : Nat → Bank) (idx : Nat) (amount : Int) : Nat → Bank :=
  fun i => if i = idx then borrowedBank banks idx amount else banks i

/-- The account after a borrow of `amount` from bank `idx`. -/
def borrowedAccount (banks : Nat → Bank) (acc : MarginfiAccount) (idx : Nat) (amount : Int) :
    MarginfiAccount :=
  addLiabShares acc idx (fdivCeil amount (banks idx).liabilityShareValue)

end Engine

/-! ## Concrete fixtures used by witnesses -/

/-- A transfer collaborator that always succeeds. -/
def okTransfer : TransferArgs → Except TransferError Unit := fun _ => Except.ok ()

/-- A transfer collaborator that always fails with error code 9. -/
def errTransfer : TransferArgs → Except TransferError Unit := fun _ => Except.error ⟨9⟩

/-- Sample accounts for `create_campaign` with matching mints. -/
def sampleAccts : CreateCampaignAccounts :=
  { admin := ⟨1⟩, fundingAccount := ⟨2⟩, campaignRewardVault := ⟨3⟩,
    assetMint := ⟨4⟩, marginfiBank := ⟨5⟩, marginfiBankMint := ⟨4⟩ }

/-- Sample accounts whose asset mint differs from the bank mint. -/
def mismatchAccts : CreateCampaignAccounts :=
  { admin := ⟨1⟩, fundingAccount := ⟨2⟩, campaignRewardVault := ⟨3⟩,
    assetMint := ⟨6⟩, marginfiBank := ⟨5⟩, marginfiBankMint := ⟨4⟩ }

/-- The campaign produced from `sampleAccts` with arguments 7, 100, 50. -/
def sampleCampaign : Campaign :=
  { admin := ⟨1⟩, lockup_period := 7, active := true, max_deposits := 100,
    remaining_capacity := 100, max_rewards := 50, marginfi_bank_pk := ⟨5⟩ }

/-- The event trace of that successful call. -/
def sampleEvents : List Event :=
  [Event.transferCall (transferArgsOf sampleAccts 50), Event.campaignWrite sampleCampaign]

/-- A previously stored campaign value, for commit-semantics witnesses. -/
def oldCampaign : Campaign :=
  { admin := ⟨8⟩, lockup_period := 1, active := false, max_deposits := 2,
    remaining_capacity := 2, max_rewards := 3, marginfi_bank_pk := ⟨9⟩ }

/-- A config with no multisig. -/
def sampleConfig : Config :=
  { cluster := 0, fee_payer := ⟨11, ⟨12⟩⟩, multisig := none,
    program_id := ⟨13⟩, commitment := 0, dry_run := false }

/-- The same config with `dry_run` flipped on. -/
def sampleConfigDry : Config :=
  { cluster := 0, fee_payer := ⟨11, ⟨12⟩⟩, multisig := none,
    program_id := ⟨13⟩, commitment := 0, dry_run := true }

/-- A config with a multisig authority. -/
def sampleConfigMs : Config :=
  { cluster := 0, fee_payer := ⟨11, ⟨12⟩⟩, multisig := some ⟨10⟩,
    program_id := ⟨13⟩, commitment := 0, dry_run := false }

/-- The bank of the boundary scenario of the spec (section 8): asset weight
0.8, liability weight 1.25 at Initial, oracle price one dollar, unit share
values, 1000 units deposited (all fixed-point at a million). -/
def scenarioBank : Engine.Bank :=
  { totalAssetShares := 1000000000, totalLiabilityShares := 0,
    assetShareValue := 1000000, liabilityShareValue := 1000000,
    assetWeightInit := 800000, assetWeightMaint := 900000,
    liabilityWeightInit := 1250000, liabilityWeightMaint := 1100000,
    lastUpdateTimestamp := 0, borrowCap := none, liquidationBonus := 50000,
    price := 1000000 }

/-- A bank map holding the scenario bank everywhere. -/
def scenarioBanks : Nat → Engine.Bank := fun _ => scenarioBank

/-- The scenario account: a single deposit of 1000 units into bank 0. -/
def scenarioAcc : Engine.MarginfiAccount :=
  { authority := ⟨1⟩, balances := [⟨0, 1000000000, 0, true, 0⟩] }

/-- An account with no balances, used as a liquidator. -/
def emptyAcc : Engine.MarginfiAccount := { authority := ⟨2⟩, balances := [] }

/-- A bank with nonzero utilization, for the accrual witness: 1000 asset
units against 100 liability units at unit share values. -/
def accrualBank : Engine.Bank :=
  { totalAssetShares := 1000000000, totalLiabilityShares := 100000000,
    assetShareValue := 1000000, liabilityShareValue := 1000000,
    assetWeightInit := 800000, assetWeightMaint := 900000,
    liabilityWeightInit := 1250000, liabilityWeightMaint := 1100000,
    lastUpdateTimestamp := 0, borrowCap := none, liquidationBonus := 50000,
    price := 1000000 }

/-- The accrual bank after accruing 5 time units: utilization 0.1, rate
0.01, so the liability share value grows to 1.05 and the asset share value
to 1.005 (both at scale). -/
def accrualBankAfter : Engine.Bank :=
  { accrualBank with
    assetShareValue := 1005000, liabilityShareValue := 1050000,
    lastUpdateTimestamp := 5 }

/-! ## Theorems -/

/-- C1: every successful `create_campaign` call leaves the Campaign account
holding exactly the signing admin key, the `lockup_period` argument,
`active = true`, the `max_deposits` argument, `remaining_capacity` equal to
`max_deposits` (full capacity), the `max_rewards` argument, and the supplied
marginfi bank key. -/
theorem create_campaign_sets_fields
    (tr : TransferArgs → Except TransferError Unit) (accts : CreateCampaignAccounts)
    (lockup_period max_deposits max_rewards : Nat) (c : Campaign) (evs : List Event)
    (h : createCampaignProcess tr accts lockup_period max_deposits max_rewards =
      (Except.ok c, evs)) :
    c.admin = accts.admin ∧ c.lockup_period = lockup_period ∧ c.active = true ∧
    c.max_deposits = max_deposits ∧ c.remaining_capacity = max_deposits ∧
    c.max_rewards = max_rewards ∧ c.marginfi_bank_pk = accts.marginfiBank := by
  cases htr : tr (transferArgsOf accts max_rewards) with
  | error e => simp [createCampaignProcess, htr] at h
  | ok u =>
    simp only [createCampaignProcess, htr, Prod.mk.injEq, Except.ok.injEq] at h
    obtain ⟨hc, -⟩ := h
    subst hc
    exact ⟨rfl, rfl, rfl, rfl, rfl, rfl, rfl⟩

/-- C1 witness: a concrete successful call with lockup 7, deposits 100 and
rewards 50 yields exactly `sampleCampaign`. -/
theorem create_campaign_sets_fields_witness :
    sampleCampaign.admin = sampleAccts.admin ∧
    sampleCampaign.lockup_period = 7 ∧ sampleCampaign.active = true ∧
    sampleCampaign.max_deposits = 100 ∧ sampleCampaign.remaining_capacity = 100 ∧
    sampleCampaign.max_rewards = 50 ∧
    sampleCampaign.marginfi_bank_pk = sampleAccts.marginfiBank :=
  create_campaign_sets_fields okTransfer sampleAccts 7 100 50 sampleCampaign sampleEvents rfl

/-- C2: when the funding transfer fails, `create_campaign` returns that
transfer error unchanged, the stored Campaign account keeps its previous
value under commit semantics, and no Campaign write event occurs. -/
theorem create_campaign_transfer_error_aborts
    (tr : TransferArgs → Except TransferError Unit) (accts : CreateCampaignAccounts)
    (lockup_period max_deposits max_rewards : Nat) (e : TransferError) (old : Campaign)
    (h : tr (transferArgsOf accts max_rewards) = Except.error e) :
    (createCampaignProcess tr accts lockup_period max_deposits max_rewards).1 =
      Except.error e ∧
    commitCampaign old
      (createCampaignProcess tr accts lockup_period max_deposits max_rewards).1 = old ∧
    (createCampaignProcess tr accts lockup_period max_deposits max_rewards).2 =
      [Event.transferCall (transferArgsOf accts max_rewards)] := by
  simp [createCampaignProcess, h, commitCampaign]

/-- C2 witness: a concrete failing transfer (error code 9) aborts the call,
surfaces error 9, and keeps the old campaign value. -/
theorem create_campaign_transfer_error_aborts_witness :
    (createCampaignProcess errTransfer sampleAccts 7 100 50).1 = Except.error ⟨9⟩ ∧
    commitCampaign oldCampaign (createCampaignProcess errTransfer sampleAccts 7 100 50).1 =
      oldCampaign ∧
    (createCampaignProcess errTransfer sampleAccts 7 100 50).2 =
      [Event.transferCall (transferArgsOf sampleAccts 50)] :=
  create_campaign_transfer_error_aborts errTransfer sampleAccts 7 100 50 ⟨9⟩ oldCampaign rfl

/-- C8: every successful `create_campaign` call produces exactly one transfer
of `max_rewards` tokens from the funding account to the reward vault with the
admin as authority, followed by the Campaign write (transfer first). -/
theorem create_campaign_transfer_order_amount
    (tr : TransferArgs → Except TransferError Unit) (accts : CreateCampaignAccounts)
    (lockup_period max_deposits max_rewards : Nat) (c : Campaign) (evs : List Event)
    (h : createCampaignProcess tr accts lockup_period max_deposits max_rewards =
      (Except.ok c, evs)) :
    evs = [Event.transferCall (transferArgsOf accts max_rewards), Event.campaignWrite c] ∧
    (transferArgsOf accts max_rewards).amount = max_rewards ∧
    (transferArgsOf accts max_rewards).authority = accts.admin ∧
    (transferArgsOf accts max_rewards).src = accts.fundingAccount ∧
    (transferArgsOf accts max_rewards).dst = accts.campaignRewardVault := by
  cases htr : tr (transferArgsOf accts max_rewards) with
  | error e => simp [createCampaignProcess, htr] at h
  | ok u =>
    simp only [createCampaignProcess, htr, Prod.mk.injEq, Except.ok.injEq] at h
    obtain ⟨hc, hevs⟩ := h
    subst hc; subst hevs
    exact ⟨rfl, rfl, rfl, rfl, rfl⟩

/-- C8 witness: the concrete successful call emits the transfer of exactly
50 tokens with admin authority before the campaign write. -/
theorem create_campaign_transfer_order_amount_witness :
    sampleEvents = [Event.transferCall (transferArgsOf sampleAccts 50),
      Event.campaignWrite sampleCampaign] ∧
    (transferArgsOf sampleAccts 50).amount = 50 ∧
    (transferArgsOf sampleAccts 50).authority = sampleAccts.admin ∧
    (transferArgsOf sampleAccts 50).src = sampleAccts.fundingAccount ∧
    (transferArgsOf sampleAccts 50).dst = sampleAccts.campaignRewardVault :=
  create_campaign_transfer_order_amount okTransfer sampleAccts 7 100 50
    sampleCampaign sampleEvents rfl

/-- C9: when the supplied asset mint differs from the mint recorded in the
marginfi bank, `create_campaign` fails on the address constraint with no
transfer issued and no Campaign write (empty event trace), and commit
semantics keep the stored campaign unchanged. -/
theorem create_campaign_mint_mismatch_fails
    (tr : TransferArgs → Except TransferError Unit) (accts : CreateCampaignAccounts)
    (lockup_period max_deposits max_rewards : Nat) (old : Campaign)
    (h : accts.assetMint ≠ accts.marginfiBankMint) :
    createCampaign tr accts lockup_period max_deposits max_rewards =
      (Except.error LipError.constraintAddress, []) ∧
    commitCampaign old (createCampaign tr accts lockup_period max_deposits max_rewards).1 =
      old := by
  simp [createCampaign, h, commitCampaign]

/-- C9 witness: the concrete mismatching accounts fail the constraint with an
empty event trace. -/
theorem create_campaign_mint_mismatch_fails_witness :
    createCampaign okTransfer mismatchAccts 7 100 50 =
      (Except.error LipError.constraintAddress, []) ∧
    commitCampaign oldCampaign (createCampaign okTransfer mismatchAccts 7 100 50).1 =
      oldCampaign :=
  create_campaign_mint_mismatch_fails okTransfer mismatchAccts 7 100 50 oldCampaign
    (by decide)

/-- C3: two configs that differ only in `dry_run` agree on `authority`,
`get_signers` for every value of the explicit-fee-payer flag, and
`get_non_ms_authority_keypair`; and `get_tx_mode` returns `DryRun` whenever
`dry_run` is set, regardless of the multisig. -/
theorem config_dry_run_noninterference
    (c₁ c₂ : Config)
    (hcl : c₁.cluster = c₂.cluster) (hfp : c₁.fee_payer = c₂.fee_payer)
    (hms : c₁.multisig = c₂.multisig) (hpid : c₁.program_id = c₂.program_id)
    (hcm : c₁.commitment = c₂.commitment) :
    c₁.authority = c₂.authority ∧
    (∀ b : Bool, c₁.get_signers b = c₂.get_signers b) ∧
    c₁.get_non_ms_authority_keypair = c₂.get_non_ms_authority_keypair ∧
    (∀ c : Config, c.dry_run = true → c.get_tx_mode = TxMode.DryRun) := by
  refine ⟨?_, ?_, ?_, ?_⟩
  · simp [Config.authority, hms, hfp]
  · intro b; simp [Config.get_signers, hms, hfp]
  · simp [Config.get_non_ms_authority_keypair, hms, hfp]
  · intro c hc; simp [Config.get_tx_mode, hc]

/-- C3 witness: the concrete pair of configs differing only in `dry_run`
agree on the engine-relevant outputs, and the dry-run config submits in
`DryRun` mode. -/
theorem config_dry_run_noninterference_witness :
    sampleConfig.authority = sampleConfigDry.authority ∧
    sampleConfig.get_signers true = sampleConfigDry.get_signers true ∧
    sampleConfig.get_non_ms_authority_keypair =
      sampleConfigDry.get_non_ms_authority_keypair ∧
    sampleConfigDry.get_tx_mode = TxMode.DryRun := by
  have h := config_dry_run_noninterference sampleConfig sampleConfigDry rfl rfl rfl rfl rfl
  exact ⟨h.1, h.2.1 true, h.2.2.1, h.2.2.2 sampleConfigDry rfl⟩

/-- C10: `authority` returns the multisig pubkey whenever one is configured
and the fee payer pubkey otherwise, and `get_non_ms_authority_keypair`
returns the fee payer keypair exactly when no multisig is configured,
erroring in every config with a multisig set. -/
theorem config_authority_and_keypair (c : Config) :
    (∀ m : Pubkey, c.multisig = some m → c.authority = m) ∧
    (c.multisig = none → c.authority = c.fee_payer.pubkey) ∧
    (c.multisig = none →
      c.get_non_ms_authority_keypair = Except.ok c.fee_payer) ∧
    (∀ m : Pubkey, c.multisig = some m →
      c.get_non_ms_authority_keypair =
        Except.error "Cannot get authority keypair for multisig") := by
  refine ⟨?_, ?_, ?_, ?_⟩
  · intro m hm; simp [Config.authority, hm]
  · intro hm; simp [Config.authority, hm]
  · intro hm; simp [Config.get_non_ms_authority_keypair, hm]
  · intro m hm; simp [Config.get_non_ms_authority_keypair, hm]

/-- C10 witness: with a multisig set the authority is the multisig key and
the keypair getter errors; without one the fee payer keypair is returned. -/
theorem config_authority_and_keypair_witness :
    sampleConfigMs.authority = ⟨10⟩ ∧
    sampleConfigMs.get_non_ms_authority_keypair =
      Except.error "Cannot get authority keypair for multisig" ∧
    sampleConfig.authority = sampleConfig.fee_payer.pubkey ∧
    sampleConfig.get_non_ms_authority_keypair = Except.ok sampleConfig.fee_payer :=
  ⟨(config_authority_and_keypair sampleConfigMs).1 ⟨10⟩ rfl,
   (config_authority_and_keypair sampleConfigMs).2.2.2 ⟨10⟩ rfl,
   (config_authority_and_keypair sampleConfig).2.1 rfl,
   (config_authority_and_keypair sampleConfig).2.2.1 rfl⟩

/-- C4: a second accrual at the same timestamp is a no-op: whenever
`accrue t` succeeds, running it again on the result returns the result
unchanged (in particular the asset and liability share values are the
same as after a single call). -/
theorem accrue_idempotent (b b₂ : Engine.Bank) (t : Nat)
    (h : Engine.Bank.accrue t b = Except.ok b₂) :
    Engine.Bank.accrue t b₂ = Except.ok b₂ := by
  simp only [Engine.Bank.accrue] at h ⊢
  by_cases h0 : t - b.lastUpdateTimestamp = 0
  · rw [if_pos h0] at h
    injection h with h2
    subst h2
    rw [if_pos h0]
  · rw [if_neg h0] at h
    by_cases h1 : b.totalAssets < b.totalLiabilities
    · rw [if_pos h1] at h
      exact absurd h (by simp)
    · rw [if_neg h1] at h
      injection h with h2
      subst h2
      simp

/-- C4 witness: a concrete bank at utilization 0.1 accrues over 5 time
units to explicit new share values, and accruing again at the same
timestamp leaves them unchanged. -/
theorem accrue_idempotent_witness :
    Engine.Bank.accrue 5 accrualBank = Except.ok accrualBankAfter ∧
    Engine.Bank.accrue 5 accrualBankAfter = Except.ok accrualBankAfter := by
  have h : Engine.Bank.accrue 5 accrualBank = Except.ok accrualBankAfter := by decide
  exact ⟨h, accrue_idempotent accrualBank accrualBankAfter 5 h⟩

/-- C5: liquidation of a target account that passes the Health Engine at
Maintenance weights fails with `AccountHealthy`, and under commit semantics
both the liquidator and the target account are left unchanged. -/
theorem liquidate_healthy_target_fails (banks : Nat → Engine.Bank)
    (liq target : Engine.MarginfiAccount) (assetIdx liabIdx : Nat) (amount : Int)
    (h : Engine.checkHealth Engine.RiskMode.maintenanceMode banks target = true) :
    Engine.liquidate banks liq target assetIdx liabIdx amount =
      Except.error Engine.EngineErr.accountHealthy ∧
    Engine.commitPair (liq, target)
      (Engine.liquidate banks liq target assetIdx liabIdx amount) = (liq, target) := by
  constructor
  · simp [Engine.liquidate, h]
  · simp [Engine.commitPair, Engine.liquidate, h]

/-- C5 witness: the scenario account holds only collateral, so it passes
Maintenance health; liquidating it fails with `AccountHealthy` and both
accounts are unchanged. -/
theorem liquidate_healthy_target_fails_witness :
    Engine.checkHealth Engine.RiskMode.maintenanceMode scenarioBanks scenarioAcc = true ∧
    Engine.liquidate scenarioBanks emptyAcc scenarioAcc 0 0 10 =
      Except.error Engine.EngineErr.accountHealthy ∧
    Engine.commitPair (emptyAcc, scenarioAcc)
      (Engine.liquidate scenarioBanks emptyAcc scenarioAcc 0 0 10) =
      (emptyAcc, scenarioAcc) := by
  have hh : Engine.checkHealth Engine.RiskMode.maintenanceMode scenarioBanks scenarioAcc
      = true := by decide
  have ht := liquidate_healthy_target_fails scenarioBanks emptyAcc scenarioAcc 0 0 10 hh
  exact ⟨hh, ht.1, ht.2⟩

/-- C6: on an already-accrued bank within the borrow cap, a borrow whose
amount pushes the risk-weighted liabilities strictly above the risk-weighted
assets at Initial weights fails with `AccountUnhealthy`, while any amount
keeping them at or below the weighted assets succeeds. -/
theorem borrow_initial_health_gate
    (t : Nat) (banks : Nat → Engine.Bank) (acc : Engine.MarginfiAccount)
    (idx : Nat) (amount : Int)
    (hpos : 0 < amount) (hacc : (banks idx).lastUpdateTimestamp = t)
    (hcap : (Engine.borrowedBank banks idx amount).capExceeded = false) :
    (Engine.weightedAssets Engine.RiskMode.initialMode
        (Engine.borrowedBanks banks idx amount)
        (Engine.borrowedAccount banks acc idx amount) <
      Engine.weightedLiabilities Engine.RiskMode.initialMode
        (Engine.borrowedBanks banks idx amount)
        (Engine.borrowedAccount banks acc idx amount) →
      Engine.borrow t banks acc idx amount =
        Except.error Engine.EngineErr.accountUnhealthy) ∧
    (Engine.weightedLiabilities Engine.RiskMode.initialMode
        (Engine.borrowedBanks banks idx amount)
        (Engine.borrowedAccount banks acc idx amount) ≤
      Engine.weightedAssets Engine.RiskMode.initialMode
        (Engine.borrowedBanks banks idx amount)
        (Engine.borrowedAccount banks acc idx amount) →
      Engine.borrow t banks acc idx amount =
        Except.ok (Engine.borrowedAccount banks acc idx amount,
          Engine.borrowedBanks banks idx amount)) := by
  have hnl : ¬ amount ≤ 0 := not_le.mpr hpos
  have haccrue : Engine.Bank.accrue t (banks idx) = Except.ok (banks idx) := by
    simp [Engine.Bank.accrue, hacc]
  have hcap₂ := hcap
  simp only [Engine.borrowedBank] at hcap₂
  have hstep : Engine.borrow t banks acc idx amount =
      if Engine.checkHealth Engine.RiskMode.initialMode
          (Engine.borrowedBanks banks idx amount)
          (Engine.borrowedAccount banks acc idx amount)
      then Except.ok (Engine.borrowedAccount banks acc idx amount,
        Engine.borrowedBanks banks idx amount)
      else Except.error Engine.EngineErr.accountUnhealthy := by
    simp only [Engine.borrow, if_neg hnl, haccrue]
    simp only [hcap₂, Bool.false_eq_true, if_false]
    rfl
  constructor
  · intro hlt
    have hh : Engine.checkHealth Engine.RiskMode.initialMode
        (Engine.borrowedBanks banks idx amount)
        (Engine.borrowedAccount banks acc idx amount) = false := by
      simp only [Engine.checkHealth, decide_eq_false_iff_not]
      exact not_le.mpr hlt
    rw [hstep, hh]
    simp
  · intro hle
    have hh : Engine.checkHealth Engine.RiskMode.initialMode
        (Engine.borrowedBanks banks idx amount)
        (Engine.borrowedAccount banks acc idx amount) = true := by
      simp only [Engine.checkHealth, decide_eq_true_eq]
      exact hle
    rw [hstep, hh]
    simp

/-- C6 witness: the spec scenario (weights 0.8 and 1.25, price one dollar,
deposit of 1000 units): borrowing 641 units fails with `AccountUnhealthy`,
while borrowing 640 units (one unit below the threshold, weighted
liabilities exactly 800 against weighted assets 800) succeeds. -/
theorem borrow_initial_health_gate_witness :
    Engine.borrow 0 scenarioBanks scenarioAcc 0 641000000 =
      Except.error Engine.EngineErr.accountUnhealthy ∧
    Engine.borrow 0 scenarioBanks scenarioAcc 0 640000000 =
      Except.ok (Engine.borrowedAccount scenarioBanks scenarioAcc 0 640000000,
        Engine.borrowedBanks scenarioBanks 0 640000000) :=
  ⟨(borrow_initial_health_gate 0 scenarioBanks scenarioAcc 0 641000000
      (by decide) rfl (by decide)).1 (by decide),
   (borrow_initial_health_gate 0 scenarioBanks scenarioAcc 0 640000000
      (by decide) rfl (by decide)).2 (by decide)⟩

/-- C7: depositing an amount and then withdrawing the same amount with no
elapsed time returns the Balance to its initial share count up to at most
one share unit of rounding dust, and the dust only ever favors the
protocol (the final count never exceeds the initial one). -/
theorem deposit_withdraw_round_trip
    (s v amount : Nat) (s₂ : Nat) (hv : 0 < v)
    (h : Engine.withdrawShares (Engine.depositShares s v amount) v amount =
      Except.ok s₂) :
    s₂ ≤ s ∧ s - s₂ ≤ 1 := by
  have hdu : Engine.amountToSharesDown amount v ≤ Engine.amountToSharesUp amount v := by
    simp only [Engine.amountToSharesDown, Engine.amountToSharesUp]
    exact Nat.div_le_div_right (by omega)
  have hud : Engine.amountToSharesUp amount v ≤ Engine.amountToSharesDown amount v + 1 := by
    simp only [Engine.amountToSharesDown, Engine.amountToSharesUp]
    have h2 : (amount * Engine.scaleN + v - 1) / v ≤ (amount * Engine.scaleN + v) / v :=
      Nat.div_le_div_right (by omega)
    have h3 : (amount * Engine.scaleN + v) / v = amount * Engine.scaleN / v + 1 :=
      Nat.add_div_right _ hv
    omega
  simp only [Engine.withdrawShares, Engine.depositShares] at h
  by_cases hle : Engine.amountToSharesUp amount v ≤ s + Engine.amountToSharesDown amount v
  · rw [if_pos hle] at h
    injection h with h2
    omega
  · rw [if_neg hle] at h
    exact absurd h (by simp)

/-- C7 witness: with share value 1.5 (1500000 at scale), depositing 7 units
credits 4 shares and withdrawing 7 units debits 5 shares, leaving 4 of the
initial 5 shares: one share unit of dust, in the favor of the protocol. -/
theorem deposit_withdraw_round_trip_witness :
    Engine.withdrawShares (Engine.depositShares 5 1500000 7) 1500000 7 =
      Except.ok 4 ∧ (4 ≤ 5 ∧ 5 - 4 ≤ 1) := by
  have h : Engine.withdrawShares (Engine.depositShares 5 1500000 7) 1500000 7 =
      Except.ok 4 := by decide
  exact ⟨h, deposit_withdraw_round_trip 5 1500000 7 4 (by decide) h⟩
